import Mathlib

/-!
Shallow embedding of `Catalogs.py` from the SPyFFI repository.

Floating-point magnitude cells are modelled as `Option ℚ`: `some q` is a
finite value `q`, `none` is a non-finite value (NaN/inf), so `np.isfinite x`
becomes `x.isSome` and NaN-propagating arithmetic maps `none` to `none`.
`np.cos (x * np.pi / 180)` is abstracted as a function parameter `cosdeg`,
since cosine is external to the repository's arithmetic.
-/

namespace SPyFFI

/-- Masked assignment `x[bad] = y[bad]` with `bad = ~isfinite(x) & isfinite(y)`
(UCAC4.load, lines 246-259): the target keeps its value unless it is
non-finite and the source is finite. -/
def fillFrom : Option ℚ → Option ℚ → Option ℚ
  | none, some y => some y
  | x, _ => x

/-- Subtraction of two float cells; a non-finite operand makes the result
non-finite (IEEE NaN propagation). -/
def osub : Option ℚ → Option ℚ → Option ℚ
  | some a, some b => some (a - b)
  | _, _ => none

/-- The three magnitude bands of a UCAC4 row: `rmag` = f.mag (primary),
`jmag` = Jmag (alternate-1), `vmag` = Vmag (alternate-2). -/
structure Bands where
  rmag : Option ℚ
  jmag : Option ℚ
  vmag : Option ℚ
deriving DecidableEq

/-- UCAC4.load lines 246-259: fill rmag from vmag then jmag; fill jmag from
vmag then the updated rmag; fill vmag from the updated rmag then the updated
jmag. -/
def reconcileBands (b : Bands) : Bands :=
  let rmag := fillFrom b.rmag b.vmag
  let rmag := fillFrom rmag b.jmag
  let jmag := fillFrom b.jmag b.vmag
  let jmag := fillFrom jmag rmag
  let vmag := fillFrom b.vmag rmag
  let vmag := fillFrom vmag jmag
  ⟨rmag, jmag, vmag⟩

/-- Modelled from the spec: the six precedence steps of band reconciliation,
written exactly as the spec lists them (primary from alternate-2 then
alternate-1; alternate-1 from alternate-2 then primary; alternate-2 from
primary then alternate-1, each step firing only when the target is non-finite
and the source finite, using values already updated by earlier steps). -/
def reconcileSpecSteps (primary alt1 alt2 : Option ℚ) :
    Option ℚ × Option ℚ × Option ℚ :=
  let p1 := if !primary.isSome && alt2.isSome then alt2 else primary
  let p2 := if !p1.isSome && alt1.isSome then alt1 else p1
  let a1 := if !alt1.isSome && alt2.isSome then alt2 else alt1
  let a2 := if !a1.isSome && p2.isSome then p2 else a1
  let b1 := if !alt2.isSome && p2.isSome then p2 else alt2
  let b2 := if !b1.isSome && a2.isSome then a2 else b1
  (p2, a2, b2)

/-- One raw row of the UCAC4 query result (columns used by UCAC4.load). -/
structure UCAC4Row where
  ra : ℚ
  dec : ℚ
  pmra : Option ℚ
  pmdec : Option ℚ
  rmag : Option ℚ
  jmag : Option ℚ
  vmag : Option ℚ
deriving DecidableEq

/-- The reconciled bands of one row. -/
def rowBands (row : UCAC4Row) : Bands :=
  reconcileBands ⟨row.rmag, row.jmag, row.vmag⟩

/-- UCAC4.load line 264: `imag = rmag - relations.davenport(rmag - jmag)` on
the reconciled bands; `dav` stands for the external `relations.davenport`. -/
def rowImag (dav : Option ℚ → Option ℚ) (row : UCAC4Row) : Option ℚ :=
  osub (rowBands row).rmag (dav (osub (rowBands row).rmag (rowBands row).jmag))

/-- UCAC4.load line 271: the retention mask `ok = np.isfinite(imag)` applied
to the list of rows. -/
def ucac4Keep (dav : Option ℚ → Option ℚ) (rows : List UCAC4Row) :
    List UCAC4Row :=
  rows.filter (fun row => (rowImag dav row).isSome)

/-- The per-star arrays produced by UCAC4.load. -/
structure UCAC4Catalog where
  ra : List ℚ
  dec : List ℚ
  pmra : List ℚ
  pmdec : List ℚ
  tmag : List ℚ
  temperature : List (Option ℚ)
  epoch : ℚ
deriving DecidableEq

/-- UCAC4.load lines 263-279: non-finite proper motions are coerced to 0,
`temperatures = relations.pickles(rmag - jmag)` on reconciled bands, and all
arrays are sliced together by the finite-imag mask; epoch is 2000.0.
`pickles` and `dav` stand for the external `relations` functions. -/
def ucac4Load (pickles dav : Option ℚ → Option ℚ) (rows : List UCAC4Row) :
    UCAC4Catalog :=
  let keep := ucac4Keep dav rows
  { ra := keep.map (fun r => r.ra)
    dec := keep.map (fun r => r.dec)
    pmra := keep.map (fun r => r.pmra.getD 0)
    pmdec := keep.map (fun r => r.pmdec.getD 0)
    tmag := keep.map (fun r => (rowImag dav r).getD 0)
    temperature := keep.map (fun r => pickles (osub (rowBands r).rmag (rowBands r).jmag))
    epoch := 2000 }

/-! ### Light curves and the base Catalog

`Lightcurve.py` is not among the given sources; its handles are modelled from
the spec's external-interface description. -/

/-- Modelled from the spec: a light-curve handle is either the constant
(no-variability) handle produced by `Lightcurve.constant()` or a synthetic
variability handle produced by one call of `Lightcurve.random(**kw)`; the
`ℕ` tag distinguishes independently constructed random handles. -/
inductive LCHandle where
  | constant : LCHandle
  | random (k : ℕ) : LCHandle
deriving DecidableEq

/-- Modelled from the spec: `handle.integrated(bjd, exptime)` is the
magnitude offset over `[bjd, bjd+exptime]`; the constant handle always
integrates to 0, a random handle's value is the external model `rand`. -/
def integrated (rand : ℕ → ℚ → ℚ → ℚ) : LCHandle → ℚ → ℚ → ℚ
  | .constant, _, _ => 0
  | .random k, bjd, exptime => rand k bjd exptime

/-- Base catalog state: per-star arrays, an optional `lightcurves` attribute
(`none` models the attribute never having been assigned), and the scalar
reference epoch. -/
structure Catalog where
  ra : List ℚ
  dec : List ℚ
  pmra : List ℚ
  pmdec : List ℚ
  tmag : List ℚ
  temperature : List ℚ
  lightcurves : Option (List LCHandle)
  epoch : ℚ
deriving DecidableEq

/-- Catalog.atEpoch (lines 96-110) for one star: `cosdeg x` models
`np.cos(x * np.pi / 180.0)`. -/
def atEpochStar (cosdeg : ℚ → ℚ) (ra dec pmra pmdec epoch0 epoch : ℚ) :
    ℚ × ℚ :=
  let timeelapsed := epoch - epoch0
  let decrate := pmdec / 60 / 60 / 1000
  let decindegrees := dec + timeelapsed * decrate
  let rarate := pmra / 60 / 60 / cosdeg (dec + timeelapsed * decrate / 2) / 1000
  (ra + timeelapsed * rarate, decindegrees)

/-- Catalog.atEpoch vectorized over the per-star arrays. -/
def atEpoch (cosdeg : ℚ → ℚ) (c : Catalog) (epoch : ℚ) :
    List ℚ × List ℚ :=
  ((List.range c.ra.length).map fun i =>
      (atEpochStar cosdeg (c.ra.getD i 0) (c.dec.getD i 0) (c.pmra.getD i 0)
        (c.pmdec.getD i 0) c.epoch epoch).1,
   (List.range c.dec.length).map fun i =>
      (atEpochStar cosdeg (c.ra.getD i 0) (c.dec.getD i 0) (c.pmra.getD i 0)
        (c.pmdec.getD i 0) c.epoch epoch).2)

/-- Modelled from the spec: the Position Propagator contract of section 4.1,
written with the spec's own formulas (`decRate = pmdec / 3600000`,
`meanDec = dec0 + dt * decRate / 2`, `raRate = pmra / 3600000 / cos meanDec`). -/
def propagateSpec (cosdeg : ℚ → ℚ) (ra0 dec0 pmra pmdec epoch0 epochTarget : ℚ) :
    ℚ × ℚ :=
  let dt := epochTarget - epoch0
  let decRate := pmdec / 3600000
  let dec := dec0 + dt * decRate
  let meanDec := dec0 + dt * decRate / 2
  let raRate := pmra / 3600000 / cosdeg meanDec
  (ra0 + dt * raRate, dec)

/-- Elementwise addition of two numpy 1-d arrays, including the broadcast of
a length-1 array against a longer one (the only shapes snapshot produces). -/
def npAdd (xs ys : List ℚ) : List ℚ :=
  if ys.length = 1 then xs.map (fun x => x + ys.headD 0)
  else List.zipWith (fun x y => x + y) xs ys

/-- The body of Catalog.snapshot after the bjd/epoch branch (lines 81-93):
positions from atEpoch, brightness = tmag plus the integrated light-curve
moments (`moment = [0.0]` when the `lightcurves` attribute is missing, the
`except AttributeError` path), temperature passed through. -/
def snapshotCore (cosdeg : ℚ → ℚ) (rand : ℕ → ℚ → ℚ → ℚ) (c : Catalog)
    (epoch bjd exptime : ℚ) : List ℚ × List ℚ × List ℚ × List ℚ :=
  let radec := atEpoch cosdeg c epoch
  let moment : List ℚ :=
    match c.lightcurves with
    | none => [0]
    | some lcs => lcs.map (fun lc => integrated rand lc bjd exptime)
  (radec.1, radec.2, npAdd c.tmag moment, c.temperature)

/-- Catalog.snapshot (lines 72-93). `none, none` models the TypeError raised
by `(None - 2000.0) * 365.25` when neither argument is supplied; otherwise
the missing one of bjd/epoch is derived by the linear calendar relation of
lines 77 and 79. -/
def snapshot (cosdeg : ℚ → ℚ) (rand : ℕ → ℚ → ℚ → ℚ) (c : Catalog)
    (bjdIn epochIn : Option ℚ) (exptime : ℚ) :
    Except Unit (List ℚ × List ℚ × List ℚ × List ℚ) :=
  match bjdIn, epochIn with
  | some bjd, _ =>
      .ok (snapshotCore cosdeg rand c ((bjd - 2451544.5) / 365.25 + 2000) bjd exptime)
  | none, some epoch =>
      .ok (snapshotCore cosdeg rand c epoch ((epoch - 2000) * 365.25 + 2451544.5) exptime)
  | none, none => .error ()

/-! ### addLCs (Catalog.addLCs, lines 40-62) -/

/-- `np.max` over a nonempty list (the shape addLCs applies it to). -/
def npMax (xs : List ℚ) : ℚ := xs.foldl max (xs.headD 0)

/-- Line 56: `brightenough = (self.tmag <= magmax).nonzero()[0]`, the
increasing list of indices passing the brightness cut; `magmax` lives in
`WithTop ℚ` so that `np.inf` is representable. -/
def brightenough (tmag : List ℚ) (magmax : WithTop ℚ) : List ℕ :=
  (List.range tmag.length).filter
    (fun i => decide (((tmag.getD i 0 : ℚ) : WithTop ℚ) ≤ magmax))

/-- Line 52-53: `magmax` defaults to `np.max(self.tmag) + 1` when unset. -/
def magmaxResolved (tmag : List ℚ) (magmaxIn : Option (WithTop ℚ)) : WithTop ℚ :=
  magmaxIn.getD ((npMax tmag + 1 : ℚ) : WithTop ℚ)

/-- The loop of lines 61-62: assign a fresh random handle to each chosen
index in order (`k` counts the calls to `Lightcurve.random`). -/
def assignPicks : List LCHandle → List ℕ → ℕ → List LCHandle
  | lcs, [], _ => lcs
  | lcs, i :: rest, k => assignPicks (lcs.set i (.random k)) rest (k + 1)

/-- Catalog.addLCs with the output of `np.random.choice` supplied as `pick`
(the external seeded draw): start with every star on the constant handle
(line 49), then run the assignment loop. -/
def addLCs (tmag : List ℚ) (pick : List ℕ) : List LCHandle :=
  assignPicks (List.replicate tmag.length LCHandle.constant) pick 0

/-! ### TestPattern.load (lines 177-200), non-random branch -/

/-- `np.int` conversion: truncation toward zero. -/
def ratTrunc (q : ℚ) : ℤ := if q < 0 then -(⌊-q⌋) else ⌊q⌋

/-- `np.linspace a b n`: `n` evenly spaced values from `a` to `b`. -/
def linspace (a b : ℚ) (n : ℕ) : List ℚ :=
  (List.range n).map (fun (i : ℕ) => a + (i : ℚ) * ((b - a) / ((n : ℚ) - 1)))

/-- A numpy value that is either a scalar or a 1-d array (TestPattern.load
line 196-198 stores a scalar 0 or a drawn array into pmra/pmdec). -/
inductive NPVal where
  | scalar (q : ℚ)
  | arr (l : List ℚ)
deriving DecidableEq

/-- The state established by TestPattern.load. -/
structure TPCatalog where
  ra : List ℚ
  dec : List ℚ
  tmag : List ℚ
  temperature : List ℚ
  pmra : NPVal
  pmdec : NPVal
  epoch : ℚ
deriving DecidableEq

/-- TestPattern.load, `random=False` branch (lines 177-200): `draw1`/`draw2`
stand for the external `np.random.normal(0, pm, n)` draws of the `pm > 0`
branch. -/
def testPatternLoad (cosdeg : ℚ → ℚ) (size spacing m1 m2 ra0 dec0 pm : ℚ)
    (draw1 draw2 : List ℚ) : TPCatalog :=
  let pixels := (max (ratTrunc (size / spacing)) 1).toNat
  let n := pixels ^ 2
  let meanOff := ((pixels : ℚ) - 1) / 2 * spacing
  let decOf := fun (k : ℕ) => (((k / pixels : ℕ) : ℚ) * spacing - meanOff) / 3600 + dec0
  { ra := (List.range n).map (fun k =>
      (((k % pixels : ℕ) : ℚ) * spacing - meanOff) / cosdeg (decOf k) / 3600 + ra0)
    dec := (List.range n).map decOf
    tmag := (linspace (min m1 m2) (max m1 m2) n).reverse
    temperature := List.replicate n 5800
    pmra := if pm > 0 then NPVal.arr draw1 else NPVal.scalar 0
    pmdec := if pm > 0 then NPVal.arr draw2 else NPVal.scalar 0
    epoch := 2018 }

/-! ### Trimmed (lines 282-295) -/

/-- Numpy boolean-mask selection `x[keep]` over a 1-d array. -/
def maskSel {α : Type} : List α → List Bool → List α
  | [], _ => []
  | _, [] => []
  | x :: xs, b :: bs => if b then x :: maskSel xs bs else maskSel xs bs

/-- The original indices surviving a boolean mask, in order. -/
def trueIdx : List Bool → List ℕ
  | [] => []
  | b :: bs => if b then 0 :: (trueIdx bs).map (fun j => j + 1)
               else (trueIdx bs).map (fun j => j + 1)

/-- Trimmed.__init__: slice the seven transferred keys by `keep` and copy the
epoch; `none` models the KeyError when `lightcurves` was never assigned. -/
def trimmed (c : Catalog) (keep : List Bool) : Option Catalog :=
  c.lightcurves.map (fun lcs =>
    { ra := maskSel c.ra keep
      dec := maskSel c.dec keep
      pmra := maskSel c.pmra keep
      pmdec := maskSel c.pmdec keep
      tmag := maskSel c.tmag keep
      temperature := maskSel c.temperature keep
      lightcurves := some (maskSel lcs keep)
      epoch := c.epoch })

/-! ### Helper lemmas -/

lemma osub_none_left (y : Option ℚ) : osub none y = none := by
  cases y <;> rfl

lemma atEpochStar_eq_propagateSpec (cosdeg : ℚ → ℚ)
    (ra dec pmra pmdec epoch0 epochTarget : ℚ) :
    atEpochStar cosdeg ra dec pmra pmdec epoch0 epochTarget =
      propagateSpec cosdeg ra dec pmra pmdec epoch0 epochTarget := by
  unfold atEpochStar propagateSpec
  have hdec : pmdec / 60 / 60 / 1000 = pmdec / 3600000 := by ring
  rw [hdec]
  refine Prod.ext ?_ rfl
  show ra + (epochTarget - epoch0) *
      (pmra / 60 / 60 / cosdeg (dec + (epochTarget - epoch0) * (pmdec / 3600000) / 2) / 1000) =
    ra + (epochTarget - epoch0) *
      (pmra / 3600000 / cosdeg (dec + (epochTarget - epoch0) * (pmdec / 3600000) / 2))
  ring

lemma npAdd_eq_zipWith (xs ys : List ℚ) (h : xs.length = ys.length) :
    npAdd xs ys = List.zipWith (fun x y => x + y) xs ys := by
  rw [npAdd]
  split
  · next h1 =>
    rcases ys with _ | ⟨y, ys'⟩
    · simp at h1
    · rcases ys' with _ | ⟨y2, ys''⟩
      · rcases xs with _ | ⟨x, xs'⟩
        · simp at h
        · rcases xs' with _ | ⟨x2, xs''⟩
          · rfl
          · simp at h
      · simp at h1
  · rfl

lemma zipWith_add_zero (xs : List ℚ) : ∀ ys : List ℚ, xs.length = ys.length →
    (∀ y ∈ ys, y = 0) → List.zipWith (fun x y => x + y) xs ys = xs := by
  induction xs with
  | nil => intro ys _ _; simp
  | cons x xs ih =>
    intro ys h hy
    rcases ys with _ | ⟨y, ys'⟩
    · simp at h
    · have hy0 : y = 0 := hy y (by simp)
      simp only [List.zipWith_cons_cons, hy0, add_zero]
      rw [ih ys' (by simpa using h) (fun z hz => hy z (by simp [hz]))]

lemma assignPicks_length : ∀ (pick : List ℕ) (init : List LCHandle) (k : ℕ),
    (assignPicks init pick k).length = init.length := by
  intro pick
  induction pick with
  | nil => intro init k; rfl
  | cons j rest ih =>
    intro init k
    rw [assignPicks, ih, List.length_set]

lemma assignPicks_getD_not_mem : ∀ (pick : List ℕ) (init : List LCHandle) (k i : ℕ)
    (d : LCHandle), i ∉ pick →
    (assignPicks init pick k).getD i d = init.getD i d := by
  intro pick
  induction pick with
  | nil => intro init k i d _; rfl
  | cons j rest ih =>
    intro init k i d hni
    rw [assignPicks, ih _ _ _ _ (fun hr => hni (List.mem_cons_of_mem j hr))]
    have hji : j ≠ i := fun hji => hni (hji ▸ List.mem_cons_self j rest)
    simp [List.getD_eq_getElem?_getD, List.getElem?_set_ne hji]

lemma assignPicks_getD_mem : ∀ (pick : List ℕ) (init : List LCHandle) (k i : ℕ)
    (d : LCHandle), pick.Nodup → i ∈ pick → i < init.length →
    ∃ m, (assignPicks init pick k).getD i d = .random m := by
  intro pick
  induction pick with
  | nil => intro init k i d _ hmem _; exact absurd hmem (List.not_mem_nil i)
  | cons j rest ih =>
    intro init k i d hnd hmem hlen
    rcases List.mem_cons.mp hmem with rfl | hrest
    · have hnr : i ∉ rest := (List.nodup_cons.mp hnd).1
      refine ⟨k, ?_⟩
      rw [assignPicks, assignPicks_getD_not_mem rest _ _ _ _ hnr]
      simp [List.getD_eq_getElem?_getD, List.getElem?_set_self, hlen]
    · exact ih _ _ _ _ (List.nodup_cons.mp hnd).2 hrest
        (by rw [List.length_set]; exact hlen)

lemma getD_replicate_of_lt {n i : ℕ} (h : i < n) (c d : LCHandle) :
    (List.replicate n c).getD i d = c := by
  simp [List.getD_eq_getElem?_getD, List.getElem?_replicate, h]

lemma mem_brightenough_lt (tmag : List ℚ) (magmax : WithTop ℚ) {i : ℕ}
    (h : i ∈ brightenough tmag magmax) : i < tmag.length :=
  List.mem_range.mp (List.mem_filter.mp h).1

lemma linspace_length (a b : ℚ) (n : ℕ) : (linspace a b n).length = n := by
  simp only [linspace, List.length_map, List.length_range]

lemma linspace_getElem (a b : ℚ) (n i : ℕ) (h : i < (linspace a b n).length) :
    (linspace a b n)[i] = a + (i : ℚ) * ((b - a) / ((n : ℚ) - 1)) := by
  simp only [linspace, List.getElem_map, List.getElem_range]

lemma linspace_le (a b : ℚ) (n : ℕ) (hab : a ≤ b) :
    ∀ m ∈ linspace a b n, m ≤ b := by
  intro m hm
  rcases List.mem_map.mp hm with ⟨i, hi, rfl⟩
  have hin : i < n := List.mem_range.mp hi
  by_cases hn : (n : ℚ) - 1 = 0
  · rw [hn, div_zero, mul_zero, add_zero]; exact hab
  · have h1 : 1 ≤ n := by omega
    have h1q : (1 : ℚ) ≤ (n : ℚ) := by exact_mod_cast h1
    have hpos : 0 < (n : ℚ) - 1 := lt_of_le_of_ne (by linarith) (Ne.symm hn)
    have hd : 0 ≤ (b - a) / ((n : ℚ) - 1) :=
      div_nonneg (by linarith) (le_of_lt hpos)
    have hiq : (i : ℚ) ≤ (n : ℚ) - 1 := by
      have : (i : ℚ) + 1 ≤ (n : ℚ) := by exact_mod_cast Nat.succ_le_of_lt hin
      linarith
    calc a + (i : ℚ) * ((b - a) / ((n : ℚ) - 1))
        ≤ a + ((n : ℚ) - 1) * ((b - a) / ((n : ℚ) - 1)) :=
          add_le_add_left (mul_le_mul_of_nonneg_right hiq hd) a
      _ = a + (b - a) := by rw [mul_div_cancel₀ _ hn]
      _ = b := by ring

lemma linspace_reverse_chain (a b : ℚ) (n : ℕ) (hab : a < b) :
    List.Chain' (fun x y => y < x) (linspace a b n).reverse := by
  rw [List.chain'_reverse]
  show List.Chain' _ (List.map _ (List.range n))
  rw [List.chain'_map]
  cases n with
  | zero => simp
  | succ m =>
    apply (List.chain'_range_succ _ m).mpr
    intro i hi
    show a + (i : ℚ) * ((b - a) / ((Nat.succ m : ℚ) - 1)) <
      a + ((i + 1 : ℕ) : ℚ) * ((b - a) / ((Nat.succ m : ℚ) - 1))
    have hm : ((Nat.succ m : ℚ) - 1) = (m : ℚ) := by push_cast; ring
    have hmpos : (0 : ℚ) < (m : ℚ) := by
      have : 0 < m := by omega
      exact_mod_cast this
    have hd : 0 < (b - a) / ((Nat.succ m : ℚ) - 1) := by
      rw [hm]; exact div_pos (sub_pos.mpr hab) hmpos
    have hii : (i : ℚ) < ((i + 1 : ℕ) : ℚ) := by exact_mod_cast Nat.lt_succ_self i
    exact add_lt_add_left (mul_lt_mul_of_pos_right hii hd) a

lemma linspace_reverse_getElem (a b : ℚ) (n i : ℕ)
    (h : i < ((linspace a b n).reverse).length) :
    ((linspace a b n).reverse)[i] =
      a + ((n - 1 - i : ℕ) : ℚ) * ((b - a) / ((n : ℚ) - 1)) := by
  rw [List.getElem_reverse]
  simp only [linspace_length]
  exact linspace_getElem a b n (n - 1 - i)
    (by rw [List.length_reverse, linspace_length] at h; rw [linspace_length]; omega)

lemma ratTrunc_max_eq_floor_max (q : ℚ) :
    max (ratTrunc q) 1 = max ⌊q⌋ 1 := by
  rw [ratTrunc]
  split
  · next hneg =>
    have h1 : -⌊-q⌋ ≤ 0 := by
      have : (0 : ℤ) ≤ ⌊-q⌋ := Int.floor_nonneg.mpr (by linarith)
      omega
    have h2 : ⌊q⌋ ≤ 0 := Int.floor_nonpos (le_of_lt hneg)
    omega
  · rfl

lemma maskSel_length {α : Type} : ∀ (xs : List α) (keep : List Bool),
    xs.length = keep.length →
    (maskSel xs keep).length = keep.countP (fun b => b) := by
  intro xs
  induction xs with
  | nil =>
    intro keep h
    rcases keep with _ | ⟨b, bs⟩
    · rfl
    · simp at h
  | cons x xs ih =>
    intro keep h
    rcases keep with _ | ⟨b, bs⟩
    · simp at h
    · have hlen : xs.length = bs.length := by simpa using h
      rcases b with _ | _
      · rw [maskSel, if_neg (by simp), ih bs hlen, List.countP_cons]
        simp
      · rw [maskSel, if_pos (by trivial), List.length_cons, ih bs hlen, List.countP_cons]
        simp

lemma maskSel_eq_map_trueIdx {α : Type} (d : α) : ∀ (xs : List α) (keep : List Bool),
    xs.length = keep.length →
    maskSel xs keep = (trueIdx keep).map (fun j => xs.getD j d) := by
  intro xs
  induction xs with
  | nil =>
    intro keep h
    rcases keep with _ | ⟨b, bs⟩
    · rfl
    · simp at h
  | cons x xs ih =>
    intro keep h
    rcases keep with _ | ⟨b, bs⟩
    · simp at h
    · have hlen : xs.length = bs.length := by simpa using h
      rcases b with _ | _
      · rw [maskSel, trueIdx, if_neg (by simp), if_neg (by simp), ih bs hlen,
          List.map_map]
        apply List.map_congr_left
        intro j _
        simp [Function.comp, List.getD_cons_succ]
      · rw [maskSel, trueIdx, if_pos (by trivial), if_pos (by trivial), List.map_cons,
          ih bs hlen, List.map_map]
        refine congrArg₂ List.cons ?_ ?_
        · rfl
        · apply List.map_congr_left
          intro j _
          simp [Function.comp, List.getD_cons_succ]

/-! ### Claim theorems -/

/-- C1: band reconciliation applies the six precedence steps in order
(primary from alternate-2 then alternate-1, alternate-1 from alternate-2 then
the updated primary, alternate-2 from the updated primary then the updated
alternate-1, each step firing only when the target is non-finite and the
source finite); a star with primary=NaN, alternate1=5.0, alternate2=NaN ends
with primary=5.0 and alternate2=5.0; and a star with all three bands
non-finite is excluded from the final catalog. -/
theorem c1_band_reconciliation :
    (∀ r j v : Option ℚ,
      reconcileBands ⟨r, j, v⟩ =
        ⟨(reconcileSpecSteps r j v).1, (reconcileSpecSteps r j v).2.1,
         (reconcileSpecSteps r j v).2.2⟩) ∧
    reconcileBands ⟨none, some 5, none⟩ = ⟨some 5, some 5, some 5⟩ ∧
    (∀ (dav : Option ℚ → Option ℚ) (rows : List UCAC4Row) (row : UCAC4Row),
      row ∈ ucac4Keep dav rows →
      ¬(row.rmag = none ∧ row.jmag = none ∧ row.vmag = none)) := by
  refine ⟨?_, rfl, ?_⟩
  · intro r j v
    cases r <;> cases j <;> cases v <;> rfl
  · rintro dav rows row hmem ⟨hr, hj, hv⟩
    have h1 : ((rowImag dav row).isSome = true) := by
      have := List.mem_filter.mp hmem
      exact this.2
    have hb : rowBands row = ⟨none, none, none⟩ := by
      rw [rowBands, hr, hj, hv]; rfl
    rw [rowImag, hb] at h1
    rw [osub_none_left] at h1
    exact Bool.noConfusion h1

/-- C1 witness: a concrete run with one kept row, showing the exclusion
statement applies. -/
theorem c1_band_reconciliation_witness :
    ((⟨1, 2, some 0, some 0, some 1, some 2, none⟩ : UCAC4Row) ∈
      ucac4Keep (fun _ => some 0)
        [(⟨1, 2, some 0, some 0, some 1, some 2, none⟩ : UCAC4Row)]) ∧
    ¬((⟨1, 2, some 0, some 0, some 1, some 2, none⟩ : UCAC4Row).rmag = none ∧
      (⟨1, 2, some 0, some 0, some 1, some 2, none⟩ : UCAC4Row).jmag = none ∧
      (⟨1, 2, some 0, some 0, some 1, some 2, none⟩ : UCAC4Row).vmag = none) := by
  have hmem : (⟨1, 2, some 0, some 0, some 1, some 2, none⟩ : UCAC4Row) ∈
      ucac4Keep (fun _ => some 0)
        [(⟨1, 2, some 0, some 0, some 1, some 2, none⟩ : UCAC4Row)] := by
    rw [ucac4Keep, List.filter_cons_of_pos (by rfl)]
    exact List.mem_cons_self _ _
  exact ⟨hmem, c1_band_reconciliation.2.2 _ _ _ hmem⟩

/-- C2: atEpoch computes dt = epochTarget - epoch0, decRate = pmdec/3600000,
dec = dec0 + dt*decRate, meanDec = dec0 + dt*decRate/2,
raRate = pmra/3600000/cos(meanDec in radians), ra = ra0 + dt*raRate, per star
and elementwise over the per-star arrays. -/
theorem c2_atEpoch_matches_spec :
    (∀ (cosdeg : ℚ → ℚ) (ra dec pmra pmdec epoch0 epochTarget : ℚ),
      atEpochStar cosdeg ra dec pmra pmdec epoch0 epochTarget =
        propagateSpec cosdeg ra dec pmra pmdec epoch0 epochTarget) ∧
    (∀ (cosdeg : ℚ → ℚ) (c : Catalog) (epoch : ℚ),
      atEpoch cosdeg c epoch =
        ((List.range c.ra.length).map fun i =>
          (propagateSpec cosdeg (c.ra.getD i 0) (c.dec.getD i 0) (c.pmra.getD i 0)
            (c.pmdec.getD i 0) c.epoch epoch).1,
         (List.range c.dec.length).map fun i =>
          (propagateSpec cosdeg (c.ra.getD i 0) (c.dec.getD i 0) (c.pmra.getD i 0)
            (c.pmdec.getD i 0) c.epoch epoch).2)) := by
  refine ⟨atEpochStar_eq_propagateSpec, ?_⟩
  intro cosdeg c epoch
  rw [atEpoch]
  refine Prod.ext ?_ ?_ <;>
    · apply List.map_congr_left
      intro i _
      rw [atEpochStar_eq_propagateSpec]

/-- C6: with pmra = 0 and pmdec = 0, atEpoch is the identity on (ra, dec)
for every starting position, reference epoch and target epoch. -/
theorem c6_zero_pm_identity :
    ∀ (cosdeg : ℚ → ℚ) (ra0 dec0 epoch0 epochTarget : ℚ),
      atEpochStar cosdeg ra0 dec0 0 0 epoch0 epochTarget = (ra0, dec0) := by
  intro cosdeg ra0 dec0 epoch0 epochTarget
  simp [atEpochStar, zero_div, mul_zero, add_zero]

/-- C7: snapshot with neither bjd nor epoch fails fatally with no result;
with exactly one of them supplied the other is derived by the linear calendar
relation anchored at epoch 2000.0 = barycentric time 2451544.5 with 365.25
days per year, and the two single-argument forms agree along that relation. -/
theorem c7_snapshot_time_argument :
    ∀ (cosdeg : ℚ → ℚ) (rand : ℕ → ℚ → ℚ → ℚ) (c : Catalog) (exptime : ℚ),
      snapshot cosdeg rand c none none exptime = .error () ∧
      (∀ b : ℚ, snapshot cosdeg rand c (some b) none exptime =
        .ok (snapshotCore cosdeg rand c ((b - 2451544.5) / 365.25 + 2000) b exptime)) ∧
      (∀ e : ℚ, snapshot cosdeg rand c none (some e) exptime =
        .ok (snapshotCore cosdeg rand c e ((e - 2000) * 365.25 + 2451544.5) exptime)) ∧
      (∀ b : ℚ, snapshot cosdeg rand c (some b) none exptime =
        snapshot cosdeg rand c none (some ((b - 2451544.5) / 365.25 + 2000)) exptime) := by
  intro cosdeg rand c exptime
  refine ⟨rfl, fun b => rfl, fun e => rfl, ?_⟩
  intro b
  show Except.ok (snapshotCore cosdeg rand c ((b - 2451544.5) / 365.25 + 2000) b exptime) =
    Except.ok (snapshotCore cosdeg rand c ((b - 2451544.5) / 365.25 + 2000)
      (((b - 2451544.5) / 365.25 + 2000 - 2000) * 365.25 + 2451544.5) exptime)
  rw [show ((b - 2451544.5) / 365.25 + 2000 - 2000) * 365.25 + 2451544.5 = b by ring]

/-- C10: when both bjd and epoch are supplied, snapshot does not fail: bjd
takes precedence, the supplied epoch is ignored, and the positions are
computed at the epoch re-derived from bjd by the linear calendar relation. -/
theorem c10_bjd_precedence :
    ∀ (cosdeg : ℚ → ℚ) (rand : ℕ → ℚ → ℚ → ℚ) (c : Catalog) (b e1 e2 exptime : ℚ),
      snapshot cosdeg rand c (some b) (some e1) exptime =
        snapshot cosdeg rand c (some b) none exptime ∧
      snapshot cosdeg rand c (some b) (some e1) exptime =
        snapshot cosdeg rand c (some b) (some e2) exptime ∧
      snapshot cosdeg rand c (some b) (some e1) exptime =
        .ok (snapshotCore cosdeg rand c ((b - 2451544.5) / 365.25 + 2000) b exptime) :=
  fun _ _ _ _ _ _ _ => ⟨rfl, rfl, rfl⟩

/-- C5: snapshot brightness is the static tmag plus each star's light-curve
handle's integrated magnitude offset over the exposure; when every handle is
the constant one, or when no lightcurves attribute was ever assigned, the
brightness is exactly the static tmag; temperature is returned unmodified. -/
theorem c5_snapshot_brightness :
    (∀ (cosdeg : ℚ → ℚ) (rand : ℕ → ℚ → ℚ → ℚ) (c : Catalog) (bjd exptime : ℚ)
        (lcs : List LCHandle),
      c.lightcurves = some lcs → lcs.length = c.tmag.length →
      snapshot cosdeg rand c (some bjd) none exptime =
        .ok ((atEpoch cosdeg c ((bjd - 2451544.5) / 365.25 + 2000)).1,
             (atEpoch cosdeg c ((bjd - 2451544.5) / 365.25 + 2000)).2,
             List.zipWith (fun t lc => t + integrated rand lc bjd exptime) c.tmag lcs,
             c.temperature) ∧
      ((∀ lc ∈ lcs, lc = LCHandle.constant) →
        snapshot cosdeg rand c (some bjd) none exptime =
          .ok ((atEpoch cosdeg c ((bjd - 2451544.5) / 365.25 + 2000)).1,
               (atEpoch cosdeg c ((bjd - 2451544.5) / 365.25 + 2000)).2,
               c.tmag, c.temperature))) ∧
    (∀ (cosdeg : ℚ → ℚ) (rand : ℕ → ℚ → ℚ → ℚ) (c : Catalog) (bjd exptime : ℚ),
      c.lightcurves = none →
      snapshot cosdeg rand c (some bjd) none exptime =
        .ok ((atEpoch cosdeg c ((bjd - 2451544.5) / 365.25 + 2000)).1,
             (atEpoch cosdeg c ((bjd - 2451544.5) / 365.25 + 2000)).2,
             c.tmag, c.temperature)) := by
  constructor
  · intro cosdeg rand c bjd exptime lcs hlc hlen
    have hmap : c.tmag.length =
        (lcs.map (fun lc => integrated rand lc bjd exptime)).length := by
      rw [List.length_map]; exact hlen.symm
    have hnp : npAdd c.tmag (lcs.map (fun lc => integrated rand lc bjd exptime)) =
        List.zipWith (fun t lc => t + integrated rand lc bjd exptime) c.tmag lcs := by
      rw [npAdd_eq_zipWith _ _ hmap, List.zipWith_map_right]
    constructor
    · show Except.ok
        (snapshotCore cosdeg rand c ((bjd - 2451544.5) / 365.25 + 2000) bjd exptime) = _
      rw [snapshotCore, hlc, hnp]
    · intro hconst
      have hz : ∀ y ∈ lcs.map (fun lc => integrated rand lc bjd exptime), y = 0 := by
        intro y hy
        rcases List.mem_map.mp hy with ⟨lc, hlcmem, rfl⟩
        rw [hconst lc hlcmem]
        rfl
      show Except.ok
        (snapshotCore cosdeg rand c ((bjd - 2451544.5) / 365.25 + 2000) bjd exptime) = _
      rw [snapshotCore, hlc, npAdd_eq_zipWith _ _ hmap, zipWith_add_zero _ _ hmap hz]
  · intro cosdeg rand c bjd exptime hlc
    show Except.ok
      (snapshotCore cosdeg rand c ((bjd - 2451544.5) / 365.25 + 2000) bjd exptime) = _
    rw [snapshotCore, hlc]
    have hnp : npAdd c.tmag [0] = c.tmag := by simp [npAdd]
    rw [hnp]

/-- C5 witness: a one-star catalog on the constant handle yields the static
tmag and temperature unchanged. -/
theorem c5_snapshot_brightness_witness :
    ((⟨[1], [2], [0], [0], [7], [5800], some [LCHandle.constant], 2018⟩ :
        Catalog).lightcurves = some [LCHandle.constant]) ∧
    ([LCHandle.constant].length =
      (⟨[1], [2], [0], [0], [7], [5800], some [LCHandle.constant], 2018⟩ :
        Catalog).tmag.length) ∧
    (∀ lc ∈ [LCHandle.constant], lc = LCHandle.constant) ∧
    snapshot (fun _ => 1) (fun _ _ _ => 1)
        (⟨[1], [2], [0], [0], [7], [5800], some [LCHandle.constant], 2018⟩ : Catalog)
        (some 2451544.5) none 1 =
      .ok ((atEpoch (fun _ => 1)
              (⟨[1], [2], [0], [0], [7], [5800], some [LCHandle.constant], 2018⟩ :
                Catalog) ((2451544.5 - 2451544.5) / 365.25 + 2000)).1,
           (atEpoch (fun _ => 1)
              (⟨[1], [2], [0], [0], [7], [5800], some [LCHandle.constant], 2018⟩ :
                Catalog) ((2451544.5 - 2451544.5) / 365.25 + 2000)).2,
           [7], [5800]) :=
  ⟨rfl, rfl, by decide,
    (c5_snapshot_brightness.1 (fun _ => 1) (fun _ _ _ => 1)
      (⟨[1], [2], [0], [0], [7], [5800], some [LCHandle.constant], 2018⟩ : Catalog)
      2451544.5 1 [LCHandle.constant] rfl rfl).2 (by decide)⟩

/-- C3: addLCs assigns a random light-curve handle to exactly the externally
drawn subset of the eligible stars (tmag <= magmax, magmax defaulting to
max(tmag) + 1), drawn without replacement with requested size
fraction * |eligible|; with fraction 1 and magmax = +inf no star stays on the
constant handle, and with fraction 0 every star does. -/
theorem c3_addLCs_selection :
    ∀ (tmag : List ℚ) (fmax : ℚ) (magmaxIn : Option (WithTop ℚ)) (pick : List ℕ),
      pick.Nodup →
      (∀ i ∈ pick, i ∈ brightenough tmag (magmaxResolved tmag magmaxIn)) →
      (pick.length : ℚ) =
        fmax * ((brightenough tmag (magmaxResolved tmag magmaxIn)).length : ℚ) →
      (addLCs tmag pick).length = tmag.length ∧
      (∀ i ∈ pick, ∃ m, (addLCs tmag pick).getD i .constant = .random m) ∧
      (∀ i, i < tmag.length → i ∉ pick →
        (addLCs tmag pick).getD i .constant = .constant) ∧
      (fmax = 1 → magmaxIn = some ⊤ →
        ∀ i, i < tmag.length → (addLCs tmag pick).getD i .constant ≠ .constant) ∧
      (fmax = 0 → ∀ i, i < tmag.length →
        (addLCs tmag pick).getD i .constant = .constant) := by
  intro tmag fmax magmaxIn pick hnd hsub hlen
  have hlenrep : (List.replicate tmag.length LCHandle.constant).length = tmag.length :=
    List.length_replicate _ _
  refine ⟨?_, ?_, ?_, ?_, ?_⟩
  · rw [addLCs, assignPicks_length, hlenrep]
  · intro i hi
    exact assignPicks_getD_mem pick _ 0 i _ hnd hi
      (by rw [hlenrep]; exact mem_brightenough_lt _ _ (hsub i hi))
  · intro i hilt hni
    rw [addLCs, assignPicks_getD_not_mem pick _ 0 i _ hni, getD_replicate_of_lt hilt]
  · rintro rfl rfl i hilt
    have hmm : magmaxResolved tmag (some ⊤) = ⊤ := rfl
    have hel : brightenough tmag ⊤ = List.range tmag.length := by
      rw [brightenough]
      apply List.filter_eq_self.mpr
      intro a _
      simp
    rw [hmm, hel] at hsub hlen
    have hlen' : pick.length = tmag.length := by
      rw [one_mul, List.length_range] at hlen
      exact_mod_cast hlen
    have hsubs : pick ⊆ List.range tmag.length := fun x hx => hsub x hx
    have hperm : List.Perm pick (List.range tmag.length) :=
      (hnd.subperm hsubs).perm_of_length_le (by rw [List.length_range, hlen'])
    have hip : i ∈ pick := hperm.mem_iff.mpr (List.mem_range.mpr hilt)
    rcases assignPicks_getD_mem pick _ 0 i LCHandle.constant hnd hip
      (by rw [hlenrep]; exact hilt) with ⟨m, hm⟩
    rw [addLCs, hm]
    exact fun h => LCHandle.noConfusion h
  · rintro rfl i hilt
    rw [zero_mul] at hlen
    have hl0 : pick.length = 0 := by exact_mod_cast hlen
    have hpe : pick = [] := List.length_eq_zero.mp hl0
    subst hpe
    rw [addLCs, assignPicks, getD_replicate_of_lt hilt]

/-- C3 witness: a one-star catalog, the full-fraction draw [0], showing star
0 leaves the constant handle. -/
theorem c3_addLCs_selection_witness :
    ([0] : List ℕ).Nodup ∧
    (∀ i ∈ ([0] : List ℕ), i ∈ brightenough [5] (magmaxResolved [5] (some ⊤))) ∧
    ((([0] : List ℕ).length : ℚ) =
      1 * ((brightenough [5] (magmaxResolved [5] (some ⊤))).length : ℚ)) ∧
    (addLCs [5] [0]).getD 0 .constant ≠ .constant := by
  have hnd : ([0] : List ℕ).Nodup := by decide
  have hsub : ∀ i ∈ ([0] : List ℕ), i ∈ brightenough [5] (magmaxResolved [5] (some ⊤)) := by
    decide
  have hlen : ((([0] : List ℕ).length : ℚ) =
      1 * ((brightenough [5] (magmaxResolved [5] (some ⊤))).length : ℚ)) := by
    show ((1 : ℕ) : ℚ) = 1 * (([0] : List ℕ).length : ℚ)
    simp
  exact ⟨hnd, hsub, hlen,
    (c3_addLCs_selection [5] 1 (some ⊤) [0] hnd hsub hlen).2.2.2.1 rfl rfl 0
      (by decide)⟩

/-! ### C4: the synthetic-grid instance size=3000, spacing=200, magnitudes=[6,16] -/

lemma tp_n_example : ((max (ratTrunc ((3000 : ℚ) / 200)) 1).toNat ^ 2) = 225 := by
  have h15 : ratTrunc ((3000 : ℚ) / 200) = 15 := by norm_num [ratTrunc]
  rw [h15]
  rfl

lemma tp_tmag_example :
    (testPatternLoad (fun _ => 1) 3000 200 6 16 0 0 0 [] []).tmag =
      (linspace 6 16 225).reverse := by
  show (linspace (min (6 : ℚ) 16) (max (6 : ℚ) 16)
      ((max (ratTrunc ((3000 : ℚ) / 200)) 1).toNat ^ 2)).reverse = _
  rw [tp_n_example]
  norm_num

lemma tp_head_example :
    (testPatternLoad (fun _ => 1) 3000 200 6 16 0 0 0 [] []).tmag.getD 0 0 = 16 := by
  rw [tp_tmag_example]
  rw [List.getD_eq_getElem _ _ (by rw [List.length_reverse, linspace_length]; norm_num)]
  rw [linspace_reverse_getElem 6 16 225 0
    (by rw [List.length_reverse, linspace_length]; norm_num)]
  norm_num

lemma tp_last_example :
    (testPatternLoad (fun _ => 1) 3000 200 6 16 0 0 0 [] []).tmag.getD 224 0 = 6 := by
  rw [tp_tmag_example]
  rw [List.getD_eq_getElem _ _ (by rw [List.length_reverse, linspace_length]; norm_num)]
  rw [linspace_reverse_getElem 6 16 225 224
    (by rw [List.length_reverse, linspace_length]; norm_num)]
  norm_num

/-- C4 counterexample: in the 3000/200/[6,16] grid the first cell is NOT the
brightest star (magnitude 6 occurs elsewhere while the first cell carries
magnitude 16, the faintest). -/
theorem c4_first_cell_not_brightest :
    ¬ (∀ m ∈ (testPatternLoad (fun _ => 1) 3000 200 6 16 0 0 0 [] []).tmag,
        (testPatternLoad (fun _ => 1) 3000 200 6 16 0 0 0 [] []).tmag.getD 0 0 ≤ m) := by
  intro hall
  have h6 : (6 : ℚ) ∈ (testPatternLoad (fun _ => 1) 3000 200 6 16 0 0 0 [] []).tmag := by
    rw [tp_tmag_example]
    apply List.mem_reverse.mpr
    refine List.mem_map.mpr ⟨0, List.mem_range.mpr (by norm_num), ?_⟩
    norm_num
  have h16 := hall 6 h6
  rw [tp_head_example] at h16
  norm_num at h16

/-- C4 (amended): pixels = max(floor(size/spacing), 1); the 3000/200/[6,16]
grid has exactly 225 stars; tmag is monotonically decreasing from 16 to 6, so
the first grid cell is the faintest (the brightest is last); every star has
temperature 5800 K; epoch is 2018.0. -/
theorem c4_grid_construction :
    (∀ size spacing : ℚ, max (ratTrunc (size / spacing)) 1 = max ⌊size / spacing⌋ 1) ∧
    (testPatternLoad (fun _ => 1) 3000 200 6 16 0 0 0 [] []).tmag.length = 225 ∧
    (testPatternLoad (fun _ => 1) 3000 200 6 16 0 0 0 [] []).ra.length = 225 ∧
    List.Chain' (fun x y => y < x)
      (testPatternLoad (fun _ => 1) 3000 200 6 16 0 0 0 [] []).tmag ∧
    (testPatternLoad (fun _ => 1) 3000 200 6 16 0 0 0 [] []).tmag.getD 0 0 = 16 ∧
    (testPatternLoad (fun _ => 1) 3000 200 6 16 0 0 0 [] []).tmag.getD 224 0 = 6 ∧
    (∀ m ∈ (testPatternLoad (fun _ => 1) 3000 200 6 16 0 0 0 [] []).tmag,
      m ≤ (testPatternLoad (fun _ => 1) 3000 200 6 16 0 0 0 [] []).tmag.getD 0 0) ∧
    (testPatternLoad (fun _ => 1) 3000 200 6 16 0 0 0 [] []).temperature =
      List.replicate 225 5800 ∧
    (testPatternLoad (fun _ => 1) 3000 200 6 16 0 0 0 [] []).epoch = 2018 := by
  refine ⟨fun size spacing => ratTrunc_max_eq_floor_max (size / spacing),
    ?_, ?_, ?_, tp_head_example, tp_last_example, ?_, ?_, rfl⟩
  · rw [tp_tmag_example, List.length_reverse, linspace_length]
  · show ((List.range ((max (ratTrunc ((3000 : ℚ) / 200)) 1).toNat ^ 2)).map _).length = 225
    rw [List.length_map, List.length_range, tp_n_example]
  · rw [tp_tmag_example]
    exact linspace_reverse_chain 6 16 225 (by norm_num)
  · intro m hm
    rw [tp_head_example]
    rw [tp_tmag_example] at hm
    exact linspace_le 6 16 225 (by norm_num) m (List.mem_reverse.mp hm)
  · show List.replicate ((max (ratTrunc ((3000 : ℚ) / 200)) 1).toNat ^ 2) (5800 : ℚ) = _
    rw [tp_n_example]

/-- C8 counterexample: for the pm = 0 synthetic grid, pmra is NOT an N-length
array of zeros (it is the scalar 0, as TestPattern.load line 198 assigns). -/
theorem c8_pm_not_array :
    ¬ ((testPatternLoad (fun _ => 1) 3000 200 6 16 0 0 0 [] []).pmra =
        NPVal.arr (List.replicate 225 0)) := by
  intro h
  have hs : (testPatternLoad (fun _ => 1) 3000 200 6 16 0 0 0 [] []).pmra =
      NPVal.scalar 0 := by
    show (if (0 : ℚ) > 0 then NPVal.arr [] else NPVal.scalar 0) = NPVal.scalar 0
    rw [if_neg (by norm_num)]
  rw [hs] at h
  exact NPVal.noConfusion h

/-- C8 (amended): after load, the per-star arrays have equal length — all six
for the Survey Query variant, and ra/dec/tmag/temperature for the synthetic
grid — while the pm = 0 synthetic grid stores the scalar 0 (broadcast over
stars) in pmra and pmdec rather than an N-length array. -/
theorem c8_load_array_lengths :
    (∀ (cosdeg : ℚ → ℚ) (size spacing m1 m2 ra0 dec0 : ℚ) (d1 d2 : List ℚ),
      (testPatternLoad cosdeg size spacing m1 m2 ra0 dec0 0 d1 d2).ra.length =
        (testPatternLoad cosdeg size spacing m1 m2 ra0 dec0 0 d1 d2).dec.length ∧
      (testPatternLoad cosdeg size spacing m1 m2 ra0 dec0 0 d1 d2).dec.length =
        (testPatternLoad cosdeg size spacing m1 m2 ra0 dec0 0 d1 d2).tmag.length ∧
      (testPatternLoad cosdeg size spacing m1 m2 ra0 dec0 0 d1 d2).tmag.length =
        (testPatternLoad cosdeg size spacing m1 m2 ra0 dec0 0 d1 d2).temperature.length ∧
      (testPatternLoad cosdeg size spacing m1 m2 ra0 dec0 0 d1 d2).pmra =
        NPVal.scalar 0 ∧
      (testPatternLoad cosdeg size spacing m1 m2 ra0 dec0 0 d1 d2).pmdec =
        NPVal.scalar 0) ∧
    (∀ (pickles dav : Option ℚ → Option ℚ) (rows : List UCAC4Row),
      (ucac4Load pickles dav rows).ra.length = (ucac4Load pickles dav rows).dec.length ∧
      (ucac4Load pickles dav rows).dec.length =
        (ucac4Load pickles dav rows).pmra.length ∧
      (ucac4Load pickles dav rows).pmra.length =
        (ucac4Load pickles dav rows).pmdec.length ∧
      (ucac4Load pickles dav rows).pmdec.length =
        (ucac4Load pickles dav rows).tmag.length ∧
      (ucac4Load pickles dav rows).tmag.length =
        (ucac4Load pickles dav rows).temperature.length) := by
  constructor
  · intro cosdeg size spacing m1 m2 ra0 dec0 d1 d2
    refine ⟨?_, ?_, ?_, ?_, ?_⟩ <;>
      simp [testPatternLoad, linspace_length, List.length_reverse, List.length_map,
        List.length_range, List.length_replicate, lt_self_iff_false]
  · intro pickles dav rows
    refine ⟨?_, ?_, ?_, ?_, ?_⟩ <;> simp [ucac4Load, List.length_map]

/-- C9: Subset produces a catalog of length sum(keep) whose i-th star's
static attributes (and light curve) equal the source's at the i-th surviving
original index, with the source's epoch. -/
theorem c9_trimmed_subset :
    ∀ (c : Catalog) (keep : List Bool) (lcs : List LCHandle),
      c.lightcurves = some lcs →
      c.ra.length = keep.length → c.dec.length = keep.length →
      c.pmra.length = keep.length → c.pmdec.length = keep.length →
      c.tmag.length = keep.length → c.temperature.length = keep.length →
      lcs.length = keep.length →
      trimmed c keep = some
        { ra := (trueIdx keep).map (fun j => c.ra.getD j 0)
          dec := (trueIdx keep).map (fun j => c.dec.getD j 0)
          pmra := (trueIdx keep).map (fun j => c.pmra.getD j 0)
          pmdec := (trueIdx keep).map (fun j => c.pmdec.getD j 0)
          tmag := (trueIdx keep).map (fun j => c.tmag.getD j 0)
          temperature := (trueIdx keep).map (fun j => c.temperature.getD j 0)
          lightcurves := some ((trueIdx keep).map (fun j => lcs.getD j .constant))
          epoch := c.epoch } ∧
      (maskSel c.ra keep).length = keep.countP (fun b => b) := by
  intro c keep lcs hlc hra hdec hpmra hpmdec htmag htemp hlen
  refine ⟨?_, maskSel_length c.ra keep hra⟩
  rw [trimmed, hlc, Option.map_some']
  refine congrArg some ?_
  rw [maskSel_eq_map_trueIdx 0 c.ra keep hra,
    maskSel_eq_map_trueIdx 0 c.dec keep hdec,
    maskSel_eq_map_trueIdx 0 c.pmra keep hpmra,
    maskSel_eq_map_trueIdx 0 c.pmdec keep hpmdec,
    maskSel_eq_map_trueIdx 0 c.tmag keep htmag,
    maskSel_eq_map_trueIdx 0 c.temperature keep htemp,
    maskSel_eq_map_trueIdx LCHandle.constant lcs keep hlen]

/-- C9 witness: a two-star catalog masked by [true, false] keeps exactly the
first star's attributes and the epoch. -/
theorem c9_trimmed_subset_witness :
    ((⟨[1, 2], [3, 4], [5, 6], [7, 8], [9, 10], [11, 12],
        some [LCHandle.constant, LCHandle.random 0], 2000⟩ : Catalog).lightcurves =
      some [LCHandle.constant, LCHandle.random 0]) ∧
    ((⟨[1, 2], [3, 4], [5, 6], [7, 8], [9, 10], [11, 12],
        some [LCHandle.constant, LCHandle.random 0], 2000⟩ : Catalog).ra.length =
      [true, false].length) ∧
    trimmed
        (⟨[1, 2], [3, 4], [5, 6], [7, 8], [9, 10], [11, 12],
          some [LCHandle.constant, LCHandle.random 0], 2000⟩ : Catalog)
        [true, false] =
      some (⟨[1], [3], [5], [7], [9], [11], some [LCHandle.constant], 2000⟩ : Catalog) ∧
    (maskSel (⟨[1, 2], [3, 4], [5, 6], [7, 8], [9, 10], [11, 12],
        some [LCHandle.constant, LCHandle.random 0], 2000⟩ : Catalog).ra
      [true, false]).length = List.countP (fun b => b) [true, false] := by
  have h := c9_trimmed_subset
    (⟨[1, 2], [3, 4], [5, 6], [7, 8], [9, 10], [11, 12],
      some [LCHandle.constant, LCHandle.random 0], 2000⟩ : Catalog)
    [true, false] [LCHandle.constant, LCHandle.random 0]
    rfl rfl rfl rfl rfl rfl rfl rfl
  exact ⟨rfl, rfl, h.1.trans (by rfl), h.2⟩

end SPyFFI
